import Mathlib

/-!
Verification of the deterministic price-simulation engine of an educational
stock-market simulator (the `SimulationProvider` context and its sibling hook
revisions), against its natural-language specification.

Modelling conventions:
* JavaScript numbers are modelled as exact rationals (`ℚ`).  `Math.round`
  agrees with Mathlib's `round` on rationals (both are `⌊x + 1/2⌋`).
* The seeded pseudo-random source `seededRandom(parseInt(id hex) + y)` is a
  fixed function of the instrument id and the loop year; its exact values
  come from `Math.sin` on IEEE doubles, which has no bit-exact rational
  semantics, so every definition is parameterised by an arbitrary draw
  function `rand : String → ℕ → ℚ` standing for that fixed map.  Properties
  quantified over `rand` hold for the program's actual draws; refutations
  instantiate `rand` with concrete values in the function's range `[0, 1)`.
* The module-level `Map` caches become explicit association lists threaded
  through the computation.
* Database rows (portfolio, holdings, transactions) become a `TradeState`
  record; a thrown validation error becomes `Except.error` (no successor
  state is produced, i.e. nothing was mutated before the check).
-/

namespace StockSense

/-- `Math.round(x * 100) / 100`: rounding to two decimals, applied by the
source at every cache write and on every displayed price. -/
def round2 (x : ℚ) : ℚ := ((round (x * 100) : ℤ) : ℚ) / 100

/-- A `{min, max}` annual-return range from the volatility tables. -/
structure Volatility where
  min : ℚ
  max : ℚ
deriving DecidableEq

/-- The `ANNUAL_VOLATILITY` table of the provider, merged with its lookup
`ANNUAL_VOLATILITY[riskLevel] || ANNUAL_VOLATILITY.Medium` (unknown risk
levels fall back to `Medium`). -/
def ANNUAL_VOLATILITY (riskLevel : String) : Volatility :=
  if riskLevel = "High" then ⟨-40/100, 60/100⟩
  else if riskLevel = "Medium" then ⟨-25/100, 40/100⟩
  else if riskLevel = "Low" then ⟨-12/100, 22/100⟩
  else ⟨-25/100, 40/100⟩

/-- The `FUND_VOLATILITY` table, with its `|| FUND_VOLATILITY.large_cap`
fallback. -/
def FUND_VOLATILITY (category : String) : Volatility :=
  if category = "large_cap" then ⟨-15/100, 28/100⟩
  else if category = "mid_cap" then ⟨-25/100, 45/100⟩
  else if category = "small_cap" then ⟨-35/100, 60/100⟩
  else if category = "index" then ⟨-18/100, 30/100⟩
  else ⟨-15/100, 28/100⟩

/-- The `INTRADAY_FLUCTUATION` amplitude table with its `Medium` fallback. -/
def INTRADAY_FLUCTUATION (riskLevel : String) : ℚ :=
  if riskLevel = "High" then 3/1000
  else if riskLevel = "Medium" then 2/1000
  else if riskLevel = "Low" then 1/1000
  else 2/1000

/-- One year's return:
`volatility.min + rand * (volatility.max - volatility.min)
 + marketBias * (rand > threshold ? 1 : -0.5)`. -/
def annualReturnCalc (vol : Volatility) (marketBias threshold r : ℚ) : ℚ :=
  vol.min + r * (vol.max - vol.min) + marketBias * (if threshold < r then 1 else -(1/2))

/-- The compounding loop `for (y = 1; y < year; y++)` common to
`calculateYearlyPrice` (bias 0.06, threshold 0.3, floor 0.1) and
`calculateYearlyNav` (bias 0.08, threshold 0.25, floor 0.2):
`priceWalk … n` is the price after the iterations `y = 1 .. n`, each doing
`price = price * (1 + annualReturn); price = Math.max(price, base * floorFrac)`. -/
def priceWalk (vol : Volatility) (marketBias threshold floorFrac : ℚ)
    (rand : String → ℕ → ℚ) (id : String) (base : ℚ) : ℕ → ℚ
  | 0 => base
  | n + 1 =>
      let p := priceWalk vol marketBias threshold floorFrac rand id base n
      Max.max (p * (1 + annualReturnCalc vol marketBias threshold (rand id (n + 1))))
        (base * floorFrac)

/-- The value computed (and cached) by `calculateYearlyPrice` on a cache
miss: the walk up to `year - 1` iterations, rounded to two decimals. -/
def yearlyPriceVal (rand : String → ℕ → ℚ) (stockId : String) (basePrice : ℚ)
    (riskLevel : String) (year : ℕ) : ℚ :=
  round2 (priceWalk (ANNUAL_VOLATILITY riskLevel) (6/100) (3/10) (1/10)
    rand stockId basePrice (year - 1))

/-- The value computed (and cached) by `calculateYearlyNav` on a cache miss. -/
def yearlyNavVal (rand : String → ℕ → ℚ) (fundId : String) (baseNav : ℚ)
    (category : String) (year : ℕ) : ℚ :=
  round2 (priceWalk (FUND_VOLATILITY category) (8/100) (1/4) (1/5)
    rand fundId baseNav (year - 1))

/-- The `yearlyPricesRef` cache: the key is the pair behind the string key
`` `${stockId}-${year}` ``. -/
abbrev PriceCache := List ((String × ℕ) × ℚ)

/-- `calculateYearlyPrice` with the module cache made explicit: return the
cached value on a hit, otherwise compute, round, store and return. -/
def calculateYearlyPrice (rand : String → ℕ → ℚ) (cache : PriceCache)
    (stockId : String) (basePrice : ℚ) (riskLevel : String) (year : ℕ) :
    ℚ × PriceCache :=
  match cache.lookup (stockId, year) with
  | some p => (p, cache)
  | none =>
      let finalPrice := yearlyPriceVal rand stockId basePrice riskLevel year
      (finalPrice, ((stockId, year), finalPrice) :: cache)

/-- The stock record of the provider, restricted to the fields the engine
reads and writes (`symbol`, `name`, `sector`, … are carried untouched in the
source and omitted here). -/
structure SimStock where
  id : String
  base_price : ℚ
  risk_level : String
  yearlyPrice : ℚ
  current_price : ℚ
  change : ℚ
  changePercent : ℚ
deriving DecidableEq

/-- One stock's update in the provider's `LIVE_UPDATE_INTERVAL` tick
(`part_003`): the fluctuation is applied to the stable `stock.yearlyPrice`,
never to the previous `current_price`; `r` is the tick's `Math.random()`
draw. -/
def liveUpdateStock (r : ℚ) (s : SimStock) : SimStock :=
  let maxFluctuation := INTRADAY_FLUCTUATION s.risk_level
  let fluctuation := 1 + (r - 1/2) * 2 * maxFluctuation
  let newPrice := s.yearlyPrice * fluctuation
  { s with
    current_price := round2 newPrice,
    change := round2 (newPrice - s.base_price),
    changePercent := round2 ((newPrice - s.base_price) / s.base_price * 100) }

/-- The stock record of the older `useStockSimulation` hook: it has no
stored yearly reference, only the displayed `current_price`. -/
structure HookStock where
  base_price : ℚ
  current_price : ℚ
  change : ℚ
  changePercent : ℚ
deriving DecidableEq

/-- One stock's update in the hook's `PRICE_UPDATE_INTERVAL` tick
(`useStockSimulation.ts`, the `±1%` revision): the fluctuation
`1 + (Math.random() - 0.5) * 0.02` is applied to the previous displayed
`stock.current_price`. -/
def priceUpdateTick (r : ℚ) (s : HookStock) : HookStock :=
  let fluctuation := 1 + (r - 1/2) * (2/100)
  let newPrice := s.current_price * fluctuation
  { s with
    current_price := round2 newPrice,
    change := round2 (newPrice - s.base_price),
    changePercent := round2 ((newPrice - s.base_price) / s.base_price * 100) }

/-- `YEAR_DURATION = 24 * 60 * 60 * 1000` milliseconds: one real day per
simulated year. -/
def YEAR_DURATION : ℤ := 24 * 60 * 60 * 1000

/-- `MAX_SIMULATION_YEARS = 20` in the provider. -/
def MAX_SIMULATION_YEARS : ℤ := 20

/-- `calculateSimulatedYear` of the provider, on millisecond timestamps:
`Math.min(1 + Math.floor((now - yearStartedAt) / YEAR_DURATION),
MAX_SIMULATION_YEARS)`. -/
def calculateSimulatedYear (yearStartedAt now : ℤ) : ℤ :=
  Min.min (1 + ⌊(((now - yearStartedAt : ℤ) : ℚ) / (YEAR_DURATION : ℚ))⌋)
    MAX_SIMULATION_YEARS

/-- A holding as the risk-score computation sees it: its computed
`currentValue` and its stock's `risk_level` and `sector`. -/
structure ValuedHolding where
  currentValue : ℚ
  risk_level : String
  sector : String
deriving DecidableEq

/-- `Math.max(...values)` over a list (the source only applies it to
non-empty lists; the `[]` case is unreachable there). -/
def listMax (l : List ℚ) : ℚ :=
  match l with
  | [] => 0
  | c :: cs => cs.foldl Max.max c

/-- `calculateRiskScore` of the provider (identical in the hook): baseline
20 on an empty portfolio or zero total value, otherwise
`Math.min(100, Math.round(maxConcentration * 50 + highRiskExposure * 30
- diversificationBonus + 20))` — note the source clamps only from above. -/
def calculateRiskScore (holdings : List ValuedHolding) : ℚ :=
  if holdings.length = 0 then 20 else
  let totalVal := (holdings.map (fun h => h.currentValue)).sum
  if totalVal = 0 then 20 else
  let maxConcentration := listMax (holdings.map (fun h => h.currentValue / totalVal))
  let highRiskExposure :=
    ((holdings.filter (fun h => h.risk_level == "High")).map
      (fun h => h.currentValue)).sum / totalVal
  let sectors := (holdings.map (fun h => h.sector)).dedup
  let diversificationBonus := Min.min ((sectors.length : ℚ) * 5) 25
  Min.min 100
    ((round (maxConcentration * 50 + highRiskExposure * 30
      - diversificationBonus + 20) : ℤ) : ℚ)

/-- The raw heuristic exactly as the specification words it (before its
`clamp(0, 100, round(...))`), used to compare the code against the spec. -/
def riskScoreSpecRaw (holdings : List ValuedHolding) : ℚ :=
  let totalVal := (holdings.map (fun h => h.currentValue)).sum
  let maxConcentration := listMax (holdings.map (fun h => h.currentValue / totalVal))
  let highRiskExposureFraction :=
    ((holdings.filter (fun h => h.risk_level == "High")).map
      (fun h => h.currentValue)).sum / totalVal
  let diversificationBonus :=
    Min.min (((holdings.map (fun h => h.sector)).dedup.length : ℚ) * 5) 25
  maxConcentration * 50 + highRiskExposureFraction * 30 - diversificationBonus + 20

/-- A `holdings` row: one per `(portfolio, stock)` pair. -/
structure Holding where
  stock_id : String
  quantity : ℕ
  average_buy_price : ℚ
deriving DecidableEq

/-- A `transactions` row as inserted by `buyStock` / `sellStock`. -/
structure TxRecord where
  stock_id : String
  transaction_type : String
  quantity : ℕ
  price_per_share : ℚ
  total_amount : ℚ
  simulated_year : ℕ
deriving DecidableEq

/-- The mutable persistent state a trade touches: the portfolio's cash, its
holdings rows and the transaction log. -/
structure TradeState where
  cash_balance : ℚ
  holdings : List Holding
  transactions : List TxRecord
deriving DecidableEq

/-- The validation failures the trade functions throw
(`'Stock not found'`, `'Insufficient balance'`, `'Insufficient shares'`). -/
inductive TradeError where
  | stockNotFound : TradeError
  | insufficientFunds : TradeError
  | insufficientShares : TradeError
deriving DecidableEq

/-- The catalog lookup predicate `s => s.id === stockId` of
`stocks.find(...)`. -/
def stockKey (stockId : String) : SimStock → Bool :=
  fun s => s.id == stockId

/-- The holdings lookup predicate behind the
`.eq('stock_id', stockId)` filter of the `maybeSingle` queries. -/
def holdingKey (stockId : String) : Holding → Bool :=
  fun h => h.stock_id == stockId

/-- Replace the first holding whose `stock_id` matches (the source updates
by the row `id` of the holding that `maybeSingle` returned, which is the
first and, by the table's unique constraint, only match). -/
def replaceFirst (l : List Holding) (stockId : String) (f : Holding → Holding) :
    List Holding :=
  match l with
  | [] => []
  | h :: t => if h.stock_id == stockId then f h :: t else h :: replaceFirst t stockId f

/-- Delete the first holding whose `stock_id` matches. -/
def removeFirst (l : List Holding) (stockId : String) : List Holding :=
  match l with
  | [] => []
  | h :: t => if h.stock_id == stockId then t else h :: removeFirst t stockId

/-- `buyStock` of the provider (line-for-line the hook's `buyStock` too):
find the stock, reject if `totalCost > cash_balance`, then debit cash and
either weighted-average into the existing holding or insert a new one, and
append a BUY transaction.  An error produces no successor state: in the
source the throw happens before any database write. -/
def buyStock (stocks : List SimStock) (simulatedYear : ℕ) (st : TradeState)
    (stockId : String) (quantity : ℕ) : Except TradeError TradeState :=
  match stocks.find? (stockKey stockId) with
  | none => .error .stockNotFound
  | some stock =>
      let totalCost := stock.current_price * (quantity : ℚ)
      if st.cash_balance < totalCost then .error .insufficientFunds
      else
        let newBalance := st.cash_balance - totalCost
        let holdings' :=
          match st.holdings.find? (holdingKey stockId) with
          | some existingHolding =>
              replaceFirst st.holdings stockId (fun _ =>
                { existingHolding with
                  quantity := existingHolding.quantity + quantity,
                  average_buy_price :=
                    (existingHolding.average_buy_price * (existingHolding.quantity : ℚ)
                      + totalCost) / ((existingHolding.quantity + quantity : ℕ) : ℚ) })
          | none =>
              st.holdings ++ [⟨stockId, quantity, stock.current_price⟩]
        .ok
          { cash_balance := newBalance,
            holdings := holdings',
            transactions := st.transactions ++
              [⟨stockId, "BUY", quantity, stock.current_price, totalCost, simulatedYear⟩] }

/-- `sellStock` of the provider (same logic in the hook): reject if there is
no holding or `holding.quantity < quantity`; otherwise credit the proceeds,
delete the holding on a full liquidation (`holding.quantity === quantity`)
or decrement its quantity (leaving `average_buy_price` untouched), and
append a SELL transaction. -/
def sellStock (stocks : List SimStock) (simulatedYear : ℕ) (st : TradeState)
    (stockId : String) (quantity : ℕ) : Except TradeError TradeState :=
  match st.holdings.find? (holdingKey stockId) with
  | none => .error .insufficientShares
  | some holding =>
      if holding.quantity < quantity then .error .insufficientShares
      else
        match stocks.find? (stockKey stockId) with
        | none => .error .stockNotFound
        | some stock =>
            let totalProceeds := stock.current_price * (quantity : ℚ)
            let newBalance := st.cash_balance + totalProceeds
            let holdings' :=
              if holding.quantity = quantity then removeFirst st.holdings stockId
              else replaceFirst st.holdings stockId (fun _ =>
                { holding with quantity := holding.quantity - quantity })
            .ok
              { cash_balance := newBalance,
                holdings := holdings',
                transactions := st.transactions ++
                  [⟨stockId, "SELL", quantity, stock.current_price, totalProceeds,
                    simulatedYear⟩] }

/-- A thrown validation error leaves the state as it was. -/
def buyStockRun (stocks : List SimStock) (simulatedYear : ℕ) (st : TradeState)
    (stockId : String) (quantity : ℕ) : TradeState :=
  match buyStock stocks simulatedYear st stockId quantity with
  | .ok st' => st'
  | .error _ => st

/-- A thrown validation error leaves the state as it was. -/
def sellStockRun (stocks : List SimStock) (simulatedYear : ℕ) (st : TradeState)
    (stockId : String) (quantity : ℕ) : TradeState :=
  match sellStock stocks simulatedYear st stockId quantity with
  | .ok st' => st'
  | .error _ => st

/-- A trade request. -/
inductive Op where
  | buy : String → ℕ → Op
  | sell : String → ℕ → Op
deriving DecidableEq

/-- One trade together with the catalog snapshot and simulated year it runs
against. -/
structure OpCtx where
  stocks : List SimStock
  simulatedYear : ℕ
  op : Op
deriving DecidableEq

/-- Run one trade, keeping the old state when it throws. -/
def applyOp (st : TradeState) (c : OpCtx) : TradeState :=
  match c.op with
  | .buy id q => buyStockRun c.stocks c.simulatedYear st id q
  | .sell id q => sellStockRun c.stocks c.simulatedYear st id q

/-- Run a sequence of trades. -/
def runOps (st : TradeState) (cs : List OpCtx) : TradeState :=
  cs.foldl applyOp st

/-- Every holding present has strictly positive quantity. -/
def zeroFreeHoldings (l : List Holding) : Prop :=
  ∀ h ∈ l, 0 < h.quantity

/-- A buy request for at least one share (the trade dialogs clamp the
quantity input with `Math.max(1, …)`, so this holds for every request the
system issues); sells are unrestricted. -/
def positiveBuy (c : OpCtx) : Prop :=
  match c.op with
  | .buy _ q => 1 ≤ q
  | .sell _ _ => True

/-! Helper lemmas. -/

/-- Rounding to two decimals loses at most half a cent downwards. -/
lemma round2_ge (x : ℚ) : x - 1/200 ≤ round2 x := by
  have h := abs_sub_round (x * 100)
  have h1 : x * 100 - ((round (x * 100) : ℤ) : ℚ) ≤ 1/2 :=
    le_trans (le_abs_self _) h
  unfold round2
  linarith

/-- The walk from zero iterations is the base price. -/
lemma priceWalk_zero (vol : Volatility) (mb th ff : ℚ) (rand : String → ℕ → ℚ)
    (id : String) (base : ℚ) :
    priceWalk vol mb th ff rand id base 0 = base := rfl

/-- One more loop iteration compounds one annual return and applies the
floor. -/
lemma priceWalk_succ (vol : Volatility) (mb th ff : ℚ) (rand : String → ℕ → ℚ)
    (id : String) (base : ℚ) (n : ℕ) :
    priceWalk vol mb th ff rand id base (n + 1)
      = Max.max ((priceWalk vol mb th ff rand id base n)
          * (1 + annualReturnCalc vol mb th (rand id (n + 1)))) (base * ff) := rfl

/-- The walk never drops below the floor fraction of the base price. -/
lemma priceWalk_ge_floor (vol : Volatility) (mb th ff : ℚ)
    (rand : String → ℕ → ℚ) (id : String) (base : ℚ) (n : ℕ)
    (hb : 0 ≤ base) (hff : ff ≤ 1) :
    base * ff ≤ priceWalk vol mb th ff rand id base n := by
  induction n with
  | zero =>
      simpa [priceWalk] using mul_le_mul_of_nonneg_left hff hb
  | succ n ih =>
      simp only [priceWalk]
      exact le_max_right _ _

/-! ## C1 — determinism of the yearly price across cached and uncached paths -/

/-- C1: `calculateYearlyPrice` is a deterministic function of its arguments.
Whenever every cache entry for `(stockId, year)` holds the value a fresh
computation would produce (true of the empty cache and preserved by every
call), the call returns exactly the recomputed value `yearlyPriceVal` — the
cached and uncached paths agree — and calling a second time with identical
arguments returns the identical value and leaves the cache unchanged. -/
theorem calculateYearlyPrice_deterministic (rand : String → ℕ → ℚ)
    (cache : PriceCache) (stockId : String) (basePrice : ℚ) (riskLevel : String)
    (year : ℕ)
    (hcoh : ∀ p, cache.lookup (stockId, year) = some p →
      p = yearlyPriceVal rand stockId basePrice riskLevel year) :
    (calculateYearlyPrice rand cache stockId basePrice riskLevel year).1
        = yearlyPriceVal rand stockId basePrice riskLevel year
    ∧ calculateYearlyPrice rand
        (calculateYearlyPrice rand cache stockId basePrice riskLevel year).2
        stockId basePrice riskLevel year
        = calculateYearlyPrice rand cache stockId basePrice riskLevel year := by
  cases h : cache.lookup (stockId, year) with
  | some p =>
      have hp := hcoh p h
      constructor
      · simp [calculateYearlyPrice, h, hp]
      · simp [calculateYearlyPrice, h]
  | none =>
      constructor
      · simp [calculateYearlyPrice, h]
      · simp [calculateYearlyPrice, h, List.lookup]

/-- C1 witness: a concrete run on the empty cache. -/
theorem calculateYearlyPrice_deterministic_witness :
    (calculateYearlyPrice (fun _ _ => 1/2) [] "a" 100 "Low" 3).1
        = yearlyPriceVal (fun _ _ => 1/2) "a" 100 "Low" 3
    ∧ calculateYearlyPrice (fun _ _ => 1/2)
        (calculateYearlyPrice (fun _ _ => 1/2) [] "a" 100 "Low" 3).2
        "a" 100 "Low" 3
        = calculateYearlyPrice (fun _ _ => 1/2) [] "a" 100 "Low" 3 :=
  calculateYearlyPrice_deterministic (fun _ _ => 1/2) [] "a" 100 "Low" 3
    (by intro p hp; simp [List.lookup] at hp)

/-! ## C2 — the per-year floor, corrected for the final cent-rounding -/

/-- C2 counterexample: the claim `yearlyPrice ≥ basePrice * 0.1` fails as
stated.  `basePrice = 100.04` (a valid `DECIMAL(12,2)` price) with a draw
sequence at the bottom of `seededRandom`'s range `[0, 1)` decays to the
per-year floor `10.004`, and the final `Math.round(price * 100) / 100`
rounds the cached value down to `10.00 < 10.004`. -/
theorem floor_invariant_counterexample :
    yearlyPriceVal (fun _ _ => 0) "a" (2501/25) "Medium" 9
      < (2501/25) * (1/10) := by
  have hvol : ANNUAL_VOLATILITY "Medium" = ⟨-25/100, 40/100⟩ := by
    simp [ANNUAL_VOLATILITY]
  have hwalk : priceWalk ⟨-25/100, 40/100⟩ (6/100) (3/10) (1/10)
      (fun _ _ => 0) "a" (2501/25) 8 = 2501/250 := by
    rw [show (8:ℕ) = 0+1+1+1+1+1+1+1+1 from rfl, priceWalk_succ, priceWalk_succ,
      priceWalk_succ, priceWalk_succ, priceWalk_succ, priceWalk_succ, priceWalk_succ,
      priceWalk_succ, priceWalk_zero]
    norm_num [annualReturnCalc]
  have h9 : (9:ℕ) - 1 = 8 := rfl
  unfold yearlyPriceVal
  rw [h9, hvol, hwalk]
  norm_num [round2, round_eq]

/-- C2 amended: the per-year floor holds up to the final half-cent rounding:
for every draw function, id, positive base, category and year `1..50`
(stocks floor at `0.1 * basePrice`, funds at `0.2 * baseNav`),
`yearlyPrice ≥ basePrice * 0.1 - 0.005` and
`yearlyNav ≥ baseNav * 0.2 - 0.005`. -/
theorem floor_invariant_amended (rand : String → ℕ → ℚ)
    (stockId fundId : String) (basePrice baseNav : ℚ) (riskLevel category : String)
    (year : ℕ) (hbS : 0 < basePrice) (hbF : 0 < baseNav)
    (hy1 : 1 ≤ year) (hy2 : year ≤ 50) :
    basePrice * (1/10) - 1/200 ≤ yearlyPriceVal rand stockId basePrice riskLevel year
    ∧ baseNav * (1/5) - 1/200 ≤ yearlyNavVal rand fundId baseNav category year := by
  constructor
  · have hw := priceWalk_ge_floor (ANNUAL_VOLATILITY riskLevel) (6/100) (3/10) (1/10)
      rand stockId basePrice (year - 1) (le_of_lt hbS) (by norm_num)
    have hr := round2_ge (priceWalk (ANNUAL_VOLATILITY riskLevel) (6/100) (3/10) (1/10)
      rand stockId basePrice (year - 1))
    unfold yearlyPriceVal
    linarith
  · have hw := priceWalk_ge_floor (FUND_VOLATILITY category) (8/100) (1/4) (1/5)
      rand fundId baseNav (year - 1) (le_of_lt hbF) (by norm_num)
    have hr := round2_ge (priceWalk (FUND_VOLATILITY category) (8/100) (1/4) (1/5)
      rand fundId baseNav (year - 1))
    unfold yearlyNavVal
    linarith

/-- C2 witness: the amended floor at a concrete input. -/
theorem floor_invariant_amended_witness :
    (100 : ℚ) * (1/10) - 1/200 ≤ yearlyPriceVal (fun _ _ => 0) "a" 100 "Medium" 9
    ∧ (10 : ℚ) * (1/5) - 1/200 ≤ yearlyNavVal (fun _ _ => 0) "b" 10 "mid_cap" 9 :=
  floor_invariant_amended (fun _ _ => 0) "a" "b" 100 10 "Medium" "mid_cap" 9
    (by norm_num) (by norm_num) (by norm_num) (by norm_num)

/-! ## C7 — year-1 identity -/

/-- C7: for `targetYear ≤ 1` the compounding loop body never executes and
`calculateYearlyPrice` returns the base price unchanged.  Base prices are
`DECIMAL(12,2)` database values, i.e. integer multiples of `1/100`, so the
final two-decimal rounding is the identity on them. -/
theorem year_one_identity (rand : String → ℕ → ℚ) (stockId riskLevel : String)
    (m : ℤ) (year : ℕ) (hy : year ≤ 1) :
    yearlyPriceVal rand stockId ((m : ℚ) / 100) riskLevel year = (m : ℚ) / 100 := by
  have h0 : year - 1 = 0 := Nat.sub_eq_zero_of_le hy
  unfold yearlyPriceVal
  rw [h0]
  show round2 ((m : ℚ) / 100) = (m : ℚ) / 100
  unfold round2
  rw [div_mul_cancel₀ ((m : ℚ)) (by norm_num : (100:ℚ) ≠ 0), round_intCast]

/-- C7 witness: year 1 with base price `123.45` returns `123.45`. -/
theorem year_one_identity_witness :
    yearlyPriceVal (fun _ _ => 0) "a" ((12345 : ℤ) / 100 : ℚ) "Low" 1
      = ((12345 : ℤ) / 100 : ℚ) :=
  year_one_identity (fun _ _ => 0) "a" "Low" 12345 1 (by norm_num)

/-! ## C6 — the simulated-year clock -/

/-- C6: `calculateSimulatedYear` computes
`min(1 + floor((now - yearStartedAt) / YEAR_DURATION), MAX_SIMULATION_YEARS)`,
is monotone in `now` for fixed `yearStartedAt`, and never exceeds the cap. -/
theorem calculateSimulatedYear_monotone (yearStartedAt now1 now2 : ℤ)
    (h : now1 ≤ now2) :
    calculateSimulatedYear yearStartedAt now1 ≤ calculateSimulatedYear yearStartedAt now2
    ∧ calculateSimulatedYear yearStartedAt now2 ≤ MAX_SIMULATION_YEARS
    ∧ calculateSimulatedYear yearStartedAt now1 =
        Min.min (1 + ⌊((now1 - yearStartedAt : ℤ) : ℚ) / ((YEAR_DURATION : ℤ) : ℚ)⌋)
          MAX_SIMULATION_YEARS := by
  refine ⟨?_, min_le_right _ _, rfl⟩
  have hnum : ((now1 - yearStartedAt : ℤ) : ℚ) ≤ ((now2 - yearStartedAt : ℤ) : ℚ) := by
    exact_mod_cast sub_le_sub_right h yearStartedAt
  have hD : ((YEAR_DURATION : ℤ) : ℚ) = 86400000 := by norm_num [YEAR_DURATION]
  have hdiv : ((now1 - yearStartedAt : ℤ) : ℚ) / ((YEAR_DURATION : ℤ) : ℚ)
      ≤ ((now2 - yearStartedAt : ℤ) : ℚ) / ((YEAR_DURATION : ℤ) : ℚ) := by
    rw [hD]; linarith
  exact min_le_min (add_le_add_left (Int.floor_le_floor hdiv) 1) le_rfl

/-- C6 witness: one day after the start the clock reads year 2 (not above
the concrete year 20 cap). -/
theorem calculateSimulatedYear_monotone_witness :
    calculateSimulatedYear 0 0 ≤ calculateSimulatedYear 0 86400000
    ∧ calculateSimulatedYear 0 86400000 ≤ MAX_SIMULATION_YEARS
    ∧ calculateSimulatedYear 0 0 =
        Min.min (1 + ⌊((0 - 0 : ℤ) : ℚ) / ((YEAR_DURATION : ℤ) : ℚ)⌋)
          MAX_SIMULATION_YEARS :=
  calculateSimulatedYear_monotone 0 0 86400000 (by norm_num)

/-! ## C3 — intraday jitter must re-derive from the stable yearly reference -/

/-- A hook-revision stock whose displayed price starts at its yearly
reference value 100. -/
def hookStock0 : HookStock :=
  { base_price := 100, current_price := 100, change := 0, changePercent := 0 }

/-- A provider stock with yearly reference 100 and `Medium` risk. -/
def provStock0 : SimStock :=
  { id := "a", base_price := 100, risk_level := "Medium", yearlyPrice := 100,
    current_price := 100, change := 0, changePercent := 0 }

/-- C3: the `useStockSimulation` hook's intraday tick violates the claim —
it multiplies the previous displayed `current_price`, so two consecutive
ticks with draw `0.9` (each fluctuation within `±1%`) compound
`100 → 100.8 → 101.61`, leaving the `±1%` band `[99, 101]` around the
stable reference 100.  The provider's tick (`liveUpdateStock`) instead
re-derives from `yearlyPrice`: the same two ticks both display `100.16` and
leave the yearly reference unchanged, as the claim states. -/
theorem intraday_jitter_feedback_divergence :
    (priceUpdateTick (9/10) (priceUpdateTick (9/10) hookStock0)).current_price
        = 10161/100
    ∧ hookStock0.current_price * (1 + 1/100) < (10161/100 : ℚ)
    ∧ (liveUpdateStock (9/10) (liveUpdateStock (9/10) provStock0)).current_price
        = (liveUpdateStock (9/10) provStock0).current_price
    ∧ (liveUpdateStock (9/10) (liveUpdateStock (9/10) provStock0)).yearlyPrice
        = provStock0.yearlyPrice := by
  refine ⟨?_, ?_, ?_, ?_⟩
  · simp only [priceUpdateTick, hookStock0]
    norm_num [round2, round_eq]
  · simp only [hookStock0]
    norm_num
  · simp only [liveUpdateStock]
  · simp only [liveUpdateStock]

/-! ## C8 — risk-score bounds, corrected for the missing lower clamp -/

/-- Folding `max` from `a` never goes below `a`. -/
lemma le_foldl_max (l : List ℚ) (a : ℚ) : a ≤ l.foldl Max.max a := by
  induction l generalizing a with
  | nil => exact le_refl a
  | cons x xs ih => exact le_trans (le_max_left a x) (ih (Max.max a x))

/-- `Math.max` of a list of non-negative values is non-negative. -/
lemma listMax_nonneg (l : List ℚ) (hl : ∀ x ∈ l, 0 ≤ x) : 0 ≤ listMax l := by
  cases l with
  | nil => exact le_refl 0
  | cons c cs =>
      exact le_trans (hl c (List.mem_cons_self c cs)) (le_foldl_max cs c)

/-- Twelve equal-valued low-risk holdings in twelve distinct sectors. -/
def twelveEvenHoldings : List ValuedHolding :=
  [⟨1, "Low", "sa"⟩, ⟨1, "Low", "sb"⟩, ⟨1, "Low", "sc"⟩, ⟨1, "Low", "sd"⟩,
   ⟨1, "Low", "se"⟩, ⟨1, "Low", "sf"⟩, ⟨1, "Low", "sg"⟩, ⟨1, "Low", "sh"⟩,
   ⟨1, "Low", "si"⟩, ⟨1, "Low", "sj"⟩, ⟨1, "Low", "sk"⟩, ⟨1, "Low", "sl"⟩]

/-- C8 counterexample: the claim `0 ≤ riskScore` fails as stated.  Twelve
equal holdings of value 1 in twelve distinct sectors with no high-risk
exposure give `round(50/12 + 0 - 25 + 20) = round(-5/6) = -1`, and the
source clamps only at 100, so the returned score is `-1 < 0`. -/
theorem riskScore_counterexample :
    calculateRiskScore twelveEvenHoldings = -1
    ∧ calculateRiskScore twelveEvenHoldings < 0 := by
  have h : calculateRiskScore twelveEvenHoldings = -1 := by
    simp [calculateRiskScore, twelveEvenHoldings, listMax]
    norm_num [round_eq]
  exact ⟨h, by rw [h]; norm_num⟩

/-- C8 amended: with every holding value non-negative (always true of
`price * quantity`), the risk score lies in `[-5, 100]` (the source has no
lower clamp at 0 and can return `-1`), empty holdings give exactly the
baseline 20, and for positive total value the score is exactly
`min(100, round(maxConcentration*50 + highRiskExposureFraction*30
- diversificationBonus + 20))`, the spec's formula clamped only from
above. -/
theorem riskScore_amended (holdings : List ValuedHolding)
    (hnn : ∀ h ∈ holdings, 0 ≤ h.currentValue) :
    -5 ≤ calculateRiskScore holdings
    ∧ calculateRiskScore holdings ≤ 100
    ∧ (holdings = [] → calculateRiskScore holdings = 20)
    ∧ (0 < (holdings.map (fun h => h.currentValue)).sum →
        calculateRiskScore holdings
          = Min.min 100 ((round (riskScoreSpecRaw holdings) : ℤ) : ℚ)) := by
  have htnn : 0 ≤ (holdings.map (fun h => h.currentValue)).sum := by
    apply List.sum_nonneg
    intro x hx
    obtain ⟨h, hh, rfl⟩ := List.mem_map.mp hx
    exact hnn h hh
  by_cases hemp : holdings.length = 0
  · have he : holdings = [] := List.length_eq_zero.mp hemp
    subst he
    refine ⟨by norm_num [calculateRiskScore], by norm_num [calculateRiskScore],
      fun _ => by norm_num [calculateRiskScore], fun hs => ?_⟩
    simp at hs
  · by_cases ht0 : (holdings.map (fun h => h.currentValue)).sum = 0
    · have hsc : calculateRiskScore holdings = 20 := by
        simp only [calculateRiskScore, if_neg hemp, ht0, eq_self_iff_true, if_true]
      refine ⟨by rw [hsc]; norm_num, by rw [hsc]; norm_num,
        fun he => absurd (congrArg List.length he) (by simpa using hemp),
        fun hs => absurd (ht0 ▸ hs) (lt_irrefl 0)⟩
    · have htpos : 0 < (holdings.map (fun h => h.currentValue)).sum :=
        lt_of_le_of_ne htnn (Ne.symm ht0)
      have hscore : calculateRiskScore holdings
          = Min.min 100 ((round (riskScoreSpecRaw holdings) : ℤ) : ℚ) := by
        simp only [calculateRiskScore, riskScoreSpecRaw, if_neg hemp, if_neg ht0]
      have hmc : 0 ≤ listMax (holdings.map
          (fun h => h.currentValue / (holdings.map (fun h => h.currentValue)).sum)) := by
        apply listMax_nonneg
        intro x hx
        obtain ⟨h, hh, rfl⟩ := List.mem_map.mp hx
        exact div_nonneg (hnn h hh) htnn
      have hhr : 0 ≤ ((holdings.filter (fun h => h.risk_level == "High")).map
          (fun h => h.currentValue)).sum / (holdings.map (fun h => h.currentValue)).sum := by
        apply div_nonneg _ htnn
        apply List.sum_nonneg
        intro x hx
        obtain ⟨h, hh, rfl⟩ := List.mem_map.mp hx
        exact hnn h (List.mem_of_mem_filter hh)
      have hbon : Min.min (((holdings.map (fun h => h.sector)).dedup.length : ℚ) * 5) 25
          ≤ 25 := min_le_right _ _
      have hraw : -5 ≤ riskScoreSpecRaw holdings := by
        simp only [riskScoreSpecRaw]
        nlinarith [hmc, hhr, hbon]
      have hround : (-5 : ℤ) ≤ round (riskScoreSpecRaw holdings) := by
        rw [round_eq]
        calc (-5 : ℤ) = ⌊(-5 + 1/2 : ℚ)⌋ := by norm_num
          _ ≤ ⌊riskScoreSpecRaw holdings + 1/2⌋ :=
            Int.floor_le_floor (by linarith)
      refine ⟨?_, ?_, ?_, fun _ => hscore⟩
      · rw [hscore]
        exact le_min (by norm_num) (by exact_mod_cast hround)
      · rw [hscore]
        exact min_le_left _ _
      · exact fun he => absurd (congrArg List.length he) (by simpa using hemp)

/-- C8 witness: the amended bounds at a concrete one-holding portfolio. -/
theorem riskScore_amended_witness :
    -5 ≤ calculateRiskScore [⟨100, "High", "tech"⟩]
    ∧ calculateRiskScore [⟨100, "High", "tech"⟩] ≤ 100
    ∧ ([⟨100, "High", "tech"⟩] = ([] : List ValuedHolding) →
        calculateRiskScore [⟨100, "High", "tech"⟩] = 20)
    ∧ (0 < (([⟨100, "High", "tech"⟩] : List ValuedHolding).map
          (fun h => h.currentValue)).sum →
        calculateRiskScore [⟨100, "High", "tech"⟩]
          = Min.min 100 ((round (riskScoreSpecRaw [⟨100, "High", "tech"⟩]) : ℤ) : ℚ)) :=
  riskScore_amended [⟨100, "High", "tech"⟩]
    (by intro h hh; simp at hh; rw [hh]; norm_num)

/-! ## Trade-executor helper lemmas -/

/-- Searching after an in-place update finds the updated row. -/
lemma find?_replaceFirst (l : List Holding) (stockId : String)
    (f : Holding → Holding) (h : Holding)
    (hf : l.find? (holdingKey stockId) = some h)
    (hid : holdingKey stockId (f h) = true) :
    (replaceFirst l stockId f).find? (holdingKey stockId) = some (f h) := by
  induction l with
  | nil => simp [List.find?] at hf
  | cons a t ih =>
      by_cases ha : holdingKey stockId a = true
      · rw [List.find?_cons_of_pos t ha] at hf
        injection hf with hf
        subst hf
        have hrw : replaceFirst (a :: t) stockId f = f a :: t := by
          simp [replaceFirst, holdingKey] at ha ⊢
          simp [ha]
        rw [hrw]
        exact List.find?_cons_of_pos t hid
      · rw [List.find?_cons_of_neg t ha] at hf
        have hrw : replaceFirst (a :: t) stockId f = a :: replaceFirst t stockId f := by
          simp [replaceFirst, holdingKey] at ha ⊢
          simp [ha]
        rw [hrw]
        rw [List.find?_cons_of_neg _ ha]
        exact ih hf

/-- Appending a matching row to a list with no match makes it the found
row. -/
lemma find?_append_singleton (l : List Holding) (stockId : String)
    (x : Holding) (hl : l.find? (holdingKey stockId) = none)
    (hx : holdingKey stockId x = true) :
    (l ++ [x]).find? (holdingKey stockId) = some x := by
  induction l with
  | nil => simpa [List.find?] using List.find?_cons_of_pos [] hx
  | cons a t ih =>
      by_cases ha : holdingKey stockId a = true
      · rw [List.find?_cons_of_pos t ha] at hl
        exact absurd hl (by simp)
      · rw [List.find?_cons_of_neg t ha] at hl
        rw [List.cons_append, List.find?_cons_of_neg _ ha]
        exact ih hl

/-- After deleting the matching row from a list whose `stock_id`s are
distinct (the table's unique constraint), no match remains. -/
lemma find?_removeFirst (l : List Holding) (stockId : String)
    (hnd : (l.map (fun h => h.stock_id)).Nodup) :
    (removeFirst l stockId).find? (holdingKey stockId) = none := by
  induction l with
  | nil => simp [removeFirst, List.find?]
  | cons a t ih =>
      rw [List.map_cons, List.nodup_cons] at hnd
      by_cases ha : holdingKey stockId a = true
      · have haid : a.stock_id = stockId := by
          simpa [holdingKey] using ha
        have hrw : removeFirst (a :: t) stockId = t := by
          simp [removeFirst, holdingKey] at ha ⊢
          simp [ha]
        rw [hrw]
        rw [List.find?_eq_none]
        intro x hx hpx
        have hxid : x.stock_id = stockId := by simpa [holdingKey] using hpx
        exact hnd.1 (haid ▸ hxid ▸ List.mem_map_of_mem (fun h => h.stock_id) hx)
      · have hrw : removeFirst (a :: t) stockId = a :: removeFirst t stockId := by
          simp [removeFirst, holdingKey] at ha ⊢
          simp [ha]
        rw [hrw, List.find?_cons_of_neg _ ha]
        exact ih hnd.2

/-- Every member of an updated list is an old member or the updated row. -/
lemma mem_replaceFirst (l : List Holding) (stockId : String)
    (f : Holding → Holding) (g : Holding)
    (hg : g ∈ replaceFirst l stockId f) : g ∈ l ∨ ∃ h ∈ l, g = f h := by
  induction l with
  | nil => simp [replaceFirst] at hg
  | cons a t ih =>
      by_cases ha : (a.stock_id == stockId) = true
      · rw [show replaceFirst (a :: t) stockId f = f a :: t by simp [replaceFirst, ha]] at hg
        rcases List.mem_cons.mp hg with hg | hg
        · exact Or.inr ⟨a, List.mem_cons_self a t, hg⟩
        · exact Or.inl (List.mem_cons_of_mem a hg)
      · rw [show replaceFirst (a :: t) stockId f = a :: replaceFirst t stockId f by
          simp [replaceFirst, ha]] at hg
        rcases List.mem_cons.mp hg with hg | hg
        · exact Or.inl (hg ▸ List.mem_cons_self a t)
        · rcases ih hg with hg | ⟨h, hh, hgh⟩
          · exact Or.inl (List.mem_cons_of_mem a hg)
          · exact Or.inr ⟨h, List.mem_cons_of_mem a hh, hgh⟩

/-- Deleting a row only removes members. -/
lemma mem_removeFirst (l : List Holding) (stockId : String) (g : Holding)
    (hg : g ∈ removeFirst l stockId) : g ∈ l := by
  induction l with
  | nil => simp [removeFirst] at hg
  | cons a t ih =>
      by_cases ha : (a.stock_id == stockId) = true
      · rw [show removeFirst (a :: t) stockId = t by simp [removeFirst, ha]] at hg
        exact List.mem_cons_of_mem a hg
      · rw [show removeFirst (a :: t) stockId = a :: removeFirst t stockId by
          simp [removeFirst, ha]] at hg
        rcases List.mem_cons.mp hg with hg | hg
        · exact hg ▸ List.mem_cons_self a t
        · exact List.mem_cons_of_mem a (ih hg)

/-- A buy of at least one share keeps every holding's quantity positive. -/
lemma zeroFree_buyStockRun (stocks : List SimStock) (year : ℕ) (st : TradeState)
    (stockId : String) (q : ℕ) (hz : zeroFreeHoldings st.holdings) (hq : 1 ≤ q) :
    zeroFreeHoldings (buyStockRun stocks year st stockId q).holdings := by
  cases hs : stocks.find? (stockKey stockId) with
  | none => simpa [buyStockRun, buyStock, hs] using hz
  | some stock =>
      by_cases hc : st.cash_balance < stock.current_price * (q : ℚ)
      · simpa [buyStockRun, buyStock, hs, hc] using hz
      · cases hh : st.holdings.find? (holdingKey stockId) with
        | some ex =>
            simp only [buyStockRun, buyStock, hs, if_neg hc, hh]
            intro g hg
            rcases mem_replaceFirst _ _ _ g hg with hg | ⟨h, _, rfl⟩
            · exact hz g hg
            · show 0 < ex.quantity + q
              omega
        | none =>
            simp only [buyStockRun, buyStock, hs, if_neg hc, hh]
            intro g hg
            rcases List.mem_append.mp hg with hg | hg
            · exact hz g hg
            · have : g = ⟨stockId, q, stock.current_price⟩ := by simpa using hg
              subst this
              show 0 < q
              omega

/-- A sell (of any requested quantity) keeps every holding's quantity
positive: a full liquidation deletes the row, a partial one leaves a
positive remainder. -/
lemma zeroFree_sellStockRun (stocks : List SimStock) (year : ℕ) (st : TradeState)
    (stockId : String) (q : ℕ) (hz : zeroFreeHoldings st.holdings) :
    zeroFreeHoldings (sellStockRun stocks year st stockId q).holdings := by
  cases hh : st.holdings.find? (holdingKey stockId) with
  | none => simpa [sellStockRun, sellStock, hh] using hz
  | some holding =>
      by_cases hlt : holding.quantity < q
      · simpa [sellStockRun, sellStock, hh, hlt] using hz
      · cases hs : stocks.find? (stockKey stockId) with
        | none => simpa [sellStockRun, sellStock, hh, hlt, hs] using hz
        | some stock =>
            by_cases heq : holding.quantity = q
            · simp only [sellStockRun, sellStock, hh, if_neg hlt, hs, if_pos heq]
              intro g hg
              exact hz g (mem_removeFirst _ _ g hg)
            · simp only [sellStockRun, sellStock, hh, if_neg hlt, hs, if_neg heq]
              intro g hg
              rcases mem_replaceFirst _ _ _ g hg with hg | ⟨h, _, rfl⟩
              · exact hz g hg
              · show 0 < holding.quantity - q
                omega

/-- Any sequence of trades with positive buy quantities keeps every holding
positive. -/
lemma zeroFree_runOps (cs : List OpCtx) (st : TradeState)
    (hz : zeroFreeHoldings st.holdings) (hpos : ∀ c ∈ cs, positiveBuy c) :
    zeroFreeHoldings (runOps st cs).holdings := by
  induction cs generalizing st with
  | nil => simpa [runOps] using hz
  | cons c cs ih =>
      have hstep : zeroFreeHoldings (applyOp st c).holdings := by
        cases hop : c.op with
        | buy id q =>
            have hq : 1 ≤ q := by
              have := hpos c (List.mem_cons_self c cs)
              rwa [positiveBuy, hop] at this
            simpa [applyOp, hop] using
              zeroFree_buyStockRun c.stocks c.simulatedYear st id q hz hq
        | sell id q =>
            simpa [applyOp, hop] using
              zeroFree_sellStockRun c.stocks c.simulatedYear st id q hz
      have : runOps st (c :: cs) = runOps (applyOp st c) cs := by
        simp [runOps]
      rw [this]
      exact ih (applyOp st c) hstep (fun d hd => hpos d (List.mem_cons_of_mem c hd))

/-! ## C4 — insufficient-funds rejection without mutation -/

/-- C4: a buy whose total cost `current_price * quantity` exceeds the cash
balance fails with the insufficient-funds error and leaves the cash
balance, the holdings and the transaction log unchanged — the throw happens
before any write. -/
theorem buyStock_insufficient_funds (stocks : List SimStock) (year : ℕ)
    (st : TradeState) (stockId : String) (quantity : ℕ) (stock : SimStock)
    (hs : stocks.find? (stockKey stockId) = some stock)
    (hc : st.cash_balance < stock.current_price * (quantity : ℚ)) :
    buyStock stocks year st stockId quantity = .error .insufficientFunds
    ∧ buyStockRun stocks year st stockId quantity = st := by
  constructor
  · simp [buyStock, hs, hc]
  · simp [buyStockRun, buyStock, hs, hc]

/-- A concrete catalog entry for the trade witnesses. -/
def stockA : SimStock :=
  { id := "A", base_price := 100, risk_level := "Low", yearlyPrice := 120,
    current_price := 120, change := 0, changePercent := 0 }

/-- C4 witness: buying one share at 120 with only 100 cash is rejected and
mutates nothing. -/
theorem buyStock_insufficient_funds_witness :
    buyStock [stockA] 1 ⟨100, [], []⟩ "A" 1 = .error .insufficientFunds
    ∧ buyStockRun [stockA] 1 ⟨100, [], []⟩ "A" 1 = ⟨100, [], []⟩ :=
  buyStock_insufficient_funds [stockA] 1 ⟨100, [], []⟩ "A" 1 stockA rfl
    (by norm_num [stockA])

/-! ## C10 — the funds check is strict -/

/-- C10: with the stock found, the buy fails (necessarily with
insufficient funds, the only remaining check) if and only if the cost
strictly exceeds the cash balance; a buy whose cost exactly equals the
balance succeeds and leaves the balance at exactly 0. -/
theorem buyStock_strict_threshold (stocks : List SimStock) (year : ℕ)
    (st : TradeState) (stockId : String) (quantity : ℕ) (stock : SimStock)
    (hs : stocks.find? (stockKey stockId) = some stock) :
    ((∃ e, buyStock stocks year st stockId quantity = .error e)
      ↔ st.cash_balance < stock.current_price * (quantity : ℚ))
    ∧ (stock.current_price * (quantity : ℚ) = st.cash_balance →
        ∃ st', buyStock stocks year st stockId quantity = .ok st'
          ∧ st'.cash_balance = 0) := by
  by_cases hc : st.cash_balance < stock.current_price * (quantity : ℚ)
  · refine ⟨⟨fun _ => hc, fun _ => ⟨.insufficientFunds, by simp [buyStock, hs, hc]⟩⟩, ?_⟩
    intro heq
    exfalso
    rw [heq] at hc
    exact lt_irrefl _ hc
  · constructor
    · constructor
      · rintro ⟨e, he⟩
        cases hh : st.holdings.find? (holdingKey stockId) <;>
          simp [buyStock, hs, hc, hh] at he
      · intro h
        exact absurd h hc
    · intro heq
      cases hh : st.holdings.find? (holdingKey stockId) with
      | some ex =>
          refine ⟨buyStockRun stocks year st stockId quantity,
            by simp [buyStockRun, buyStock, hs, hc, hh], ?_⟩
          have hcash : (buyStockRun stocks year st stockId quantity).cash_balance
              = st.cash_balance - stock.current_price * (quantity : ℚ) := by
            simp [buyStockRun, buyStock, hs, hc, hh]
          rw [hcash, heq]
          ring
      | none =>
          refine ⟨buyStockRun stocks year st stockId quantity,
            by simp [buyStockRun, buyStock, hs, hc, hh], ?_⟩
          have hcash : (buyStockRun stocks year st stockId quantity).cash_balance
              = st.cash_balance - stock.current_price * (quantity : ℚ) := by
            simp [buyStockRun, buyStock, hs, hc, hh]
          rw [hcash, heq]
          ring

/-- C10 witness: buying exactly all the cash (5 shares at 120 with 600
cash) succeeds and leaves a balance of exactly 0. -/
theorem buyStock_strict_threshold_witness :
    ((∃ e, buyStock [stockA] 1 ⟨600, [], []⟩ "A" 5 = .error e)
      ↔ (600 : ℚ) < stockA.current_price * ((5 : ℕ) : ℚ))
    ∧ (stockA.current_price * ((5 : ℕ) : ℚ) = (600 : ℚ) →
        ∃ st', buyStock [stockA] 1 ⟨600, [], []⟩ "A" 5 = .ok st'
          ∧ st'.cash_balance = 0) :=
  buyStock_strict_threshold [stockA] 1 ⟨600, [], []⟩ "A" 5 stockA rfl

/-! ## C5 — weighted-average acquisition price -/

/-- C5: a successful buy of `quantity` more shares at the current price
updates an existing holding to quantity `oldQty + quantity` and average
price `(oldAvg * oldQty + cost) / (oldQty + quantity)`, and a first buy
creates the holding at the current price; cash is debited by the cost. -/
theorem buyStock_weighted_average (stocks : List SimStock) (year : ℕ)
    (st : TradeState) (stockId : String) (quantity : ℕ) (stock : SimStock)
    (hs : stocks.find? (stockKey stockId) = some stock)
    (hcost : stock.current_price * (quantity : ℚ) ≤ st.cash_balance) :
    (∀ ex, st.holdings.find? (holdingKey stockId) = some ex →
      ∃ st', buyStock stocks year st stockId quantity = .ok st'
        ∧ st'.holdings.find? (holdingKey stockId)
            = some { ex with
                quantity := ex.quantity + quantity,
                average_buy_price :=
                  (ex.average_buy_price * (ex.quantity : ℚ)
                    + stock.current_price * (quantity : ℚ))
                    / ((ex.quantity + quantity : ℕ) : ℚ) }
        ∧ st'.cash_balance = st.cash_balance - stock.current_price * (quantity : ℚ))
    ∧ (st.holdings.find? (holdingKey stockId) = none →
      ∃ st', buyStock stocks year st stockId quantity = .ok st'
        ∧ st'.holdings.find? (holdingKey stockId)
            = some ⟨stockId, quantity, stock.current_price⟩
        ∧ st'.cash_balance = st.cash_balance - stock.current_price * (quantity : ℚ)) := by
  have hc : ¬ st.cash_balance < stock.current_price * (quantity : ℚ) := not_lt.mpr hcost
  constructor
  · intro ex hh
    refine ⟨buyStockRun stocks year st stockId quantity,
      by simp [buyStockRun, buyStock, hs, hc, hh], ?_,
      by simp [buyStockRun, buyStock, hs, hc, hh]⟩
    have hrun : (buyStockRun stocks year st stockId quantity).holdings
        = replaceFirst st.holdings stockId (fun _ =>
            { ex with
              quantity := ex.quantity + quantity,
              average_buy_price :=
                (ex.average_buy_price * (ex.quantity : ℚ)
                  + stock.current_price * (quantity : ℚ))
                  / ((ex.quantity + quantity : ℕ) : ℚ) }) := by
      simp [buyStockRun, buyStock, hs, hc, hh]
    rw [hrun]
    have hid : holdingKey stockId
        ({ ex with
            quantity := ex.quantity + quantity,
            average_buy_price :=
              (ex.average_buy_price * (ex.quantity : ℚ)
                + stock.current_price * (quantity : ℚ))
                / ((ex.quantity + quantity : ℕ) : ℚ) } : Holding) = true := by
      simpa [holdingKey] using List.find?_some hh
    exact find?_replaceFirst st.holdings stockId _ ex hh hid
  · intro hh
    refine ⟨buyStockRun stocks year st stockId quantity,
      by simp [buyStockRun, buyStock, hs, hc, hh], ?_,
      by simp [buyStockRun, buyStock, hs, hc, hh]⟩
    have hrun : (buyStockRun stocks year st stockId quantity).holdings
        = st.holdings ++ [⟨stockId, quantity, stock.current_price⟩] := by
      simp [buyStockRun, buyStock, hs, hc, hh]
    rw [hrun]
    exact find?_append_singleton st.holdings stockId _ hh (by simp [holdingKey])

/-- A 200-priced catalog entry for the second buy of the C5 witness. -/
def stockA200 : SimStock :=
  { id := "A", base_price := 100, risk_level := "Low", yearlyPrice := 200,
    current_price := 200, change := 0, changePercent := 0 }

/-- C5 witness: holding 10 shares bought at 100, buying 10 more at 200
yields quantity 20 and average acquisition price 150. -/
theorem buyStock_weighted_average_witness :
    ∃ st', buyStock [stockA200] 1 ⟨9000, [⟨"A", 10, 100⟩], []⟩ "A" 10 = .ok st'
      ∧ st'.holdings.find? (holdingKey "A") = some ⟨"A", 20, 150⟩
      ∧ st'.cash_balance = 9000 - 200 * 10 := by
  obtain ⟨st', hok, hfind, hcash⟩ :=
    (buyStock_weighted_average [stockA200] 1 ⟨9000, [⟨"A", 10, 100⟩], []⟩ "A" 10
      stockA200 rfl (by norm_num [stockA200])).1 ⟨"A", 10, 100⟩ rfl
  refine ⟨st', hok, ?_, ?_⟩
  · rw [hfind]
    norm_num [stockA200]
  · rw [hcash]
    norm_num [stockA200]

/-! ## C9 — sell semantics and the no-zero-quantity invariant -/

/-- C9: selling more than held (or without a holding) fails with the
insufficient-position error and changes nothing; a partial sale credits the
proceeds and only decrements the holding's quantity, leaving its average
acquisition price unchanged; a sale of exactly the held quantity deletes
the holding (no row with that stock id remains, holdings' `stock_id`s being
unique); and after any sequence of trades whose buys request at least one
share, no holding with quantity 0 is ever present. -/
theorem sellStock_semantics (stocks : List SimStock) (year : ℕ)
    (st : TradeState) (stockId : String) (quantity : ℕ) :
    (st.holdings.find? (holdingKey stockId) = none →
      sellStock stocks year st stockId quantity = .error .insufficientShares
      ∧ sellStockRun stocks year st stockId quantity = st)
    ∧ (∀ holding, st.holdings.find? (holdingKey stockId) = some holding →
        holding.quantity < quantity →
          sellStock stocks year st stockId quantity = .error .insufficientShares
          ∧ sellStockRun stocks year st stockId quantity = st)
    ∧ (∀ holding stock, st.holdings.find? (holdingKey stockId) = some holding →
        stocks.find? (stockKey stockId) = some stock →
        quantity < holding.quantity →
          ∃ st', sellStock stocks year st stockId quantity = .ok st'
            ∧ st'.cash_balance = st.cash_balance + stock.current_price * (quantity : ℚ)
            ∧ st'.holdings = replaceFirst st.holdings stockId
                (fun _ => { holding with quantity := holding.quantity - quantity })
            ∧ st'.holdings.find? (holdingKey stockId)
                = some { holding with quantity := holding.quantity - quantity })
    ∧ (∀ holding stock, st.holdings.find? (holdingKey stockId) = some holding →
        stocks.find? (stockKey stockId) = some stock →
        quantity = holding.quantity →
        (st.holdings.map (fun h => h.stock_id)).Nodup →
          ∃ st', sellStock stocks year st stockId quantity = .ok st'
            ∧ st'.cash_balance = st.cash_balance + stock.current_price * (quantity : ℚ)
            ∧ st'.holdings = removeFirst st.holdings stockId
            ∧ st'.holdings.find? (holdingKey stockId) = none)
    ∧ (∀ cs : List OpCtx, zeroFreeHoldings st.holdings →
        (∀ c ∈ cs, positiveBuy c) → zeroFreeHoldings (runOps st cs).holdings) := by
  refine ⟨?_, ?_, ?_, ?_, fun cs hz hpos => zeroFree_runOps cs st hz hpos⟩
  · intro hh
    exact ⟨by simp [sellStock, hh], by simp [sellStockRun, sellStock, hh]⟩
  · intro holding hh hlt
    exact ⟨by simp [sellStock, hh, hlt], by simp [sellStockRun, sellStock, hh, hlt]⟩
  · intro holding stock hh hs hlt
    have hnlt : ¬ holding.quantity < quantity := by omega
    have hne : ¬ holding.quantity = quantity := by omega
    refine ⟨sellStockRun stocks year st stockId quantity,
      by simp [sellStockRun, sellStock, hh, hnlt, hs, hne],
      by simp [sellStockRun, sellStock, hh, hnlt, hs, hne], ?_, ?_⟩
    · simp [sellStockRun, sellStock, hh, hnlt, hs, hne]
    · have hrun : (sellStockRun stocks year st stockId quantity).holdings
          = replaceFirst st.holdings stockId
              (fun _ => { holding with quantity := holding.quantity - quantity }) := by
        simp [sellStockRun, sellStock, hh, hnlt, hs, hne]
      rw [hrun]
      have hid : holdingKey stockId
          ({ holding with quantity := holding.quantity - quantity } : Holding) = true := by
        simpa [holdingKey] using List.find?_some hh
      exact find?_replaceFirst st.holdings stockId _ holding hh hid
  · intro holding stock hh hs heq hnd
    have hnlt : ¬ holding.quantity < quantity := by omega
    have heq' : holding.quantity = quantity := heq.symm
    refine ⟨sellStockRun stocks year st stockId quantity,
      by simp [sellStockRun, sellStock, hh, hnlt, hs, heq'],
      by simp [sellStockRun, sellStock, hh, hnlt, hs, heq'], ?_, ?_⟩
    · simp [sellStockRun, sellStock, hh, hnlt, hs, heq']
    · have hrun : (sellStockRun stocks year st stockId quantity).holdings
          = removeFirst st.holdings stockId := by
        simp [sellStockRun, sellStock, hh, hnlt, hs, heq']
      rw [hrun]
      exact find?_removeFirst st.holdings stockId hnd

/-- C9 witness: with 5 shares held at average price 100 and the stock
trading at 120, selling all 5 credits 600, deletes the holding and leaves
no row for that stock. -/
theorem sellStock_semantics_witness :
    ∃ st', sellStock [stockA] 1 ⟨0, [⟨"A", 5, 100⟩], []⟩ "A" 5 = .ok st'
      ∧ st'.cash_balance = 0 + stockA.current_price * ((5 : ℕ) : ℚ)
      ∧ st'.holdings = removeFirst [⟨"A", 5, 100⟩] "A"
      ∧ st'.holdings.find? (holdingKey "A") = none :=
  (sellStock_semantics [stockA] 1 ⟨0, [⟨"A", 5, 100⟩], []⟩ "A" 5).2.2.2.1
    ⟨"A", 5, 100⟩ stockA rfl rfl rfl (by simp)

end StockSense
